import Mathlib

/-!
# Verification of the OficiosMZ payment escrow and dispute subsystem

Shallow embedding of the payment/dispute routers and the Mercado Pago
webhook service of the OficiosMZ backend:

* `backend/services/payment_webhook_service.py` — signature validation,
  status mapping, the retry loop of `process_webhook`, and the
  per-event reconciliation `_process_payment_event`;
* `backend/routers/payments.py` — `create_payment`, `hold_payment`,
  `release_payment`;
* `backend/routers/disputes.py` — `create_dispute`, `update_dispute`.

The backing store (Supabase tables `jobs`, `users`, `payments`,
`disputes`) is modelled as an explicit in-memory state `DB`; every
endpoint becomes a pure function from a `DB` and its request data to a
result together with the successor `DB`.  External collaborators that
the code calls but does not define (HMAC-SHA256, JSON parsing of the
webhook body, the processor fetch, transient store-update failures) are
parameters of the embedding, so that every claim is settled for all
possible behaviours of those collaborators.
-/

deriving instance DecidableEq for Except

namespace OficiosMZ

/-- HTTP-level error taxonomy of the routers.  `conflict` is raised by the
source as `HTTP_400_BAD_REQUEST` (duplicate payment/dispute, invalid state
transition), `forbidden` as 403, `notFound` as 404, `internal` as 500. -/
inductive ApiError where
  | notFound
  | forbidden
  | conflict
  | internal
deriving DecidableEq, Repr

/-- The numeric status code each `ApiError` is raised with in the source. -/
def ApiError.statusCode : ApiError → Nat
  | .notFound => 404
  | .forbidden => 403
  | .conflict => 400
  | .internal => 500

/-- A row of the `jobs` table (the fields read by the payment flow). -/
structure Job where
  id : String
  employer_id : String
  worker_id : String
  title : String
deriving DecidableEq, Repr

/-- A row of the `payments` table (`backend/routers/payments.py`,
`PaymentResponse`).  Timestamps are abstract `Nat` instants. -/
structure Payment where
  id : String
  job_id : String
  employer_id : String
  worker_id : String
  amount : Int
  status : String
  mercado_pago_preference_id : Option String
  mercado_pago_payment_id : Option String
  mercado_pago_status : Option String
  held_at : Option Nat
  released_at : Option Nat
  disputed_at : Option Nat
  created_at : Nat
  updated_at : Nat
deriving DecidableEq, Repr

/-- A row of the `disputes` table (`backend/routers/disputes.py`,
`DisputeResponse`). -/
structure Dispute where
  id : String
  payment_id : String
  initiator_id : String
  reason : String
  description : String
  status : String
  admin_notes : Option String
  resolution : Option String
  resolved_by : Option String
  resolved_at : Option Nat
deriving DecidableEq, Repr

/-- A dispatched notification (the notification service is fire-and-forget;
we record which notifications were sent and to whom). -/
structure Notification where
  ntype : String
  user_id : String
deriving DecidableEq, Repr

/-- The authenticated caller, as decoded from the JWT: the `sub` claim plus
the fields read by `is_admin` (`current_user.get("role")`,
`current_user.get("is_admin", False)`). -/
structure User where
  sub : String
  role : Option String
  is_admin_flag : Bool
deriving DecidableEq, Repr

/-- `is_admin` from `backend/routers/disputes.py`:
`current_user.get("role") == "admin" or current_user.get("is_admin", False)`. -/
def is_admin (u : User) : Bool :=
  decide (u.role = some "admin") || u.is_admin_flag

/-- The backing store plus the notification log. -/
structure DB where
  jobs : List Job
  users : List String
  payments : List Payment
  disputes : List Dispute
  notifications : List Notification
deriving DecidableEq, Repr

/-- `_map_mp_status_to_internal` from
`backend/services/payment_webhook_service.py`: the dictionary lookup
`status_mapping.get(mp_status, "pending")`. -/
def map_mp_status_to_internal (mp_status : String) : String :=
  if mp_status = "approved" then "held"
  else if mp_status = "pending" then "pending"
  else if mp_status = "rejected" then "disputed"
  else if mp_status = "cancelled" then "disputed"
  else if mp_status = "refunded" then "refunded"
  else if mp_status = "charged_back" then "disputed"
  else "pending"

/-! ## Webhook service (`backend/services/payment_webhook_service.py`) -/

/-- The result dictionary returned by `process_webhook`
(`{"status": ..., "message": ...}`). -/
structure WebhookResult where
  status : String
  message : String
deriving DecidableEq, Repr

/-- One observable I/O effect of a `process_webhook` run: a processor fetch
attempt (`_get_payment_from_mp`), an `asyncio.sleep` with its duration, or a
store-update attempt (`_update_payment_in_db`).  Attempts are numbered from
zero as in `for attempt in range(self.max_retries)`. -/
inductive Eff where
  | fetch (attempt : Nat)
  | sleep (duration : Nat)
  | storeUpdate (attempt : Nat)
deriving DecidableEq, Repr

/-- The relevant fields of the payment object returned by the Mercado Pago
API (`mp_payment` in `_process_payment_event`): `external_reference`,
`status` and `transaction_amount`, each possibly absent (`dict.get`). -/
structure MPPayment where
  external_reference : Option String
  status : Option String
  transaction_amount : Int
deriving DecidableEq, Repr

/-- The result of `json.loads(payload)` followed by
`webhook_data.get("data", {}).get("id")`: the body may be invalid JSON,
may carry no (truthy) payment id, or yields a payment id. -/
inductive ParsedPayload where
  | invalid
  | noPaymentId
  | paymentId (id : String)

/-- The external collaborators of one `process_webhook` run, all
deterministic functions: the configured webhook secret, the HMAC-SHA256
hex digest primitive, the JSON body parser, the processor response to the
fetch on each attempt, and whether the store PATCH succeeds (returns 200)
on each attempt. -/
structure WebhookEnv where
  secret : Option String
  hmacHex : String → String → String
  parse : String → ParsedPayload
  fetchResults : Nat → Option MPPayment
  updateOk : Nat → Bool

/-- The retry configuration fixed in `PaymentWebhookService.__init__`:
`self.max_retries = 3`, `self.retry_delay = 5`. -/
structure ServiceCfg where
  max_retries : Nat
  retry_delay : Nat
deriving DecidableEq, Repr

/-- `PaymentWebhookService.__init__`. -/
def defaultService : ServiceCfg := ⟨3, 5⟩

/-- `_validate_webhook_signature`: if no secret is configured validation is
skipped (`True`); otherwise the HMAC-SHA256 hex digest of the payload under
the secret is compared (`hmac.compare_digest`) with the signature. -/
def validate_webhook_signature (env : WebhookEnv) (payload signature : String) : Bool :=
  match env.secret with
  | none => true
  | some sec => decide (signature = env.hmacHex sec payload)

/-- Python `external_reference.replace("job_", "")`: delete every
(left-to-right, non-overlapping) occurrence of `"job_"`. -/
def stripJobAll : List Char → List Char
  | 'j' :: 'o' :: 'b' :: '_' :: rest => stripJobAll rest
  | c :: rest => c :: stripJobAll rest
  | [] => []

/-- `external_reference.replace("job_", "")` on strings. -/
def jobIdOfRef (ext : String) : String := ⟨stripJobAll ext.data⟩

/-- Python `external_reference.startswith("job_")`. -/
def startsWithJob (ext : String) : Bool := decide (ext.data.take 4 = ['j', 'o', 'b', '_'])

/-- Outcome of `_process_payment_event`: its boolean result, the successor
store state, and the store-update attempts it performed. -/
structure EventOutcome where
  ok : Bool
  db : DB
  effects : List Eff
deriving Repr

/-- The update payload built by `_process_payment_event` and applied by
`_update_payment_in_db` via `PATCH /payments?job_id=eq.{job_id}`: an update
keyed by job id, setting status, processor ids and the status-specific
timestamp, never inserting. -/
def applyPaymentUpdate (jobId pid : String) (mpStatus : Option String)
    (internal : String) (now : Nat) (p : Payment) : Payment :=
  if p.job_id = jobId then
    { p with
      status := internal
      mercado_pago_payment_id := some pid
      mercado_pago_status := mpStatus
      updated_at := now
      held_at := if internal = "held" then some now else p.held_at
      released_at := if internal = "released" then some now else p.released_at
      disputed_at := if internal = "disputed" then some now else p.disputed_at }
  else p

/-- Whether the notification block at the end of `_process_payment_event`
completes without raising: it subscripts `job_info["worker"]["id"]` /
`job_info["employer"]["id"]`, which throws exactly when that user row was
not found by `_get_job_and_users_info` (the send itself swallows its own
errors). -/
def notifyUsersPresent (internal : String) (job : Job) (users : List String) : Bool :=
  if internal = "held" then decide (job.worker_id ∈ users)
  else if internal = "pending" then decide (job.employer_id ∈ users)
  else if internal = "disputed" then
    decide (job.employer_id ∈ users) && decide (job.worker_id ∈ users)
  else true

/-- The notifications appended by a `_process_payment_event` run whose
store update succeeded, in dispatch order; on `disputed` the employer
notification is sent first, so it survives even when the subsequent worker
lookup throws. -/
def eventNotifications (internal : String) (job : Job) (users : List String) :
    List Notification :=
  if internal = "held" then
    if job.worker_id ∈ users then [⟨"payment_approved", job.worker_id⟩] else []
  else if internal = "pending" then
    if job.employer_id ∈ users then [⟨"payment_pending", job.employer_id⟩] else []
  else if internal = "disputed" then
    if job.employer_id ∈ users then
      ⟨"payment_disputed", job.employer_id⟩ ::
        (if job.worker_id ∈ users then [⟨"payment_disputed", job.worker_id⟩] else [])
    else []
  else []

/-- The internal status an event maps to:
`self._map_mp_status_to_internal(mp_payment.get("status"))`, where an
absent status key yields the dictionary default `pending`. -/
def eventInternal (m : MPPayment) : String :=
  match m.status with
  | some s => map_mp_status_to_internal s
  | none => "pending"

/-- `_process_payment_event`: validate `external_reference`, derive the job
id, load job (and user) context, map the processor status, update the
payment row keyed by job id, then send the status-specific notifications.
A missing user row makes the notification subscript raise after the store
write, so the event reports failure while the write persists. -/
def process_payment_event (env : WebhookEnv) (pid : String) (m : MPPayment)
    (now attempt : Nat) (db : DB) : EventOutcome :=
  match m.external_reference with
  | none => ⟨false, db, []⟩
  | some ext =>
    if startsWithJob ext = false then ⟨false, db, []⟩
    else
      let jobId := jobIdOfRef ext
      match db.jobs.find? (fun j => decide (j.id = jobId)) with
      | none => ⟨false, db, []⟩
      | some job =>
        let internal := eventInternal m
        if env.updateOk attempt then
          let db1 := { db with
            payments := db.payments.map (applyPaymentUpdate jobId pid m.status internal now) }
          let db2 := { db1 with
            notifications := db1.notifications ++ eventNotifications internal job db.users }
          ⟨notifyUsersPresent internal job db.users, db2, [.storeUpdate attempt]⟩
        else ⟨false, db, [.storeUpdate attempt]⟩

/-- Outcome of a full `process_webhook` run. -/
structure WebhookOutcome where
  result : WebhookResult
  db : DB
  effects : List Eff
deriving Repr

/-- The retry loop of `process_webhook`
(`for attempt in range(self.max_retries)`), in fuel form:
`fuel = max_retries - attempt` remaining iterations; `fuel = 0` after the
loop corresponds to the trailing `return {"status": "error", "message":
"Unexpected error"}`.  A failed attempt other than the last sleeps
`retry_delay * (attempt + 1)` and retries. -/
def reconcileLoop (cfg : ServiceCfg) (env : WebhookEnv) (pid : String) (now : Nat) :
    Nat → Nat → DB → WebhookOutcome
  | _, 0, db => ⟨⟨"error", "Unexpected error"⟩, db, []⟩
  | attempt, fuel + 1, db =>
    match env.fetchResults attempt with
    | none =>
      if fuel = 0 then ⟨⟨"error", "Failed to get payment from MP"⟩, db, [.fetch attempt]⟩
      else
        let rest := reconcileLoop cfg env pid now (attempt + 1) fuel db
        ⟨rest.result, rest.db,
          .fetch attempt :: .sleep (cfg.retry_delay * (attempt + 1)) :: rest.effects⟩
    | some m =>
      let ev := process_payment_event env pid m now attempt db
      if ev.ok then
        ⟨⟨"success", "Payment processed successfully"⟩, ev.db, .fetch attempt :: ev.effects⟩
      else if fuel = 0 then
        ⟨⟨"error", "Failed to process payment after retries"⟩, ev.db,
          .fetch attempt :: ev.effects⟩
      else
        let rest := reconcileLoop cfg env pid now (attempt + 1) fuel ev.db
        ⟨rest.result, rest.db,
          .fetch attempt ::
            (ev.effects ++ .sleep (cfg.retry_delay * (attempt + 1)) :: rest.effects)⟩

/-- `process_webhook`: validate the signature, parse the body, extract the
payment id, then reconcile with retries. -/
def process_webhook (cfg : ServiceCfg) (env : WebhookEnv)
    (payload signature : String) (now : Nat) (db : DB) : WebhookOutcome :=
  if validate_webhook_signature env payload signature = false then
    ⟨⟨"error", "Invalid signature"⟩, db, []⟩
  else
    match env.parse payload with
    | .invalid => ⟨⟨"error", "Invalid JSON payload"⟩, db, []⟩
    | .noPaymentId => ⟨⟨"ignored", "No payment ID"⟩, db, []⟩
    | .paymentId pid => reconcileLoop cfg env pid now 0 cfg.max_retries db

/-! ## Payments router (`backend/routers/payments.py`) -/

/-- `create_payment` (`POST /api/payments/`): the job must exist and belong
to the caller; at most one payment per job is enforced by rejecting when
any payment row for the job already exists; on success a `pending` payment
row is inserted.  `mp_pref` is the (optional) id of the checkout preference
returned by the processor, `new_id` the row id generated by the store. -/
def create_payment (db : DB) (caller : User) (job_id : String) (amount : Int)
    (mp_pref : Option String) (new_id : String) (now : Nat) :
    Except ApiError Payment × DB :=
  match db.jobs.find? (fun j => decide (j.id = job_id)) with
  | none => (.error .notFound, db)
  | some job =>
    if job.employer_id ≠ caller.sub then (.error .forbidden, db)
    else if db.payments.any (fun p => decide (p.job_id = job_id)) then
      (.error .conflict, db)
    else
      let p : Payment :=
        { id := new_id, job_id := job_id, employer_id := caller.sub
          worker_id := job.worker_id, amount := amount, status := "pending"
          mercado_pago_preference_id := mp_pref, mercado_pago_payment_id := none
          mercado_pago_status := none, held_at := none, released_at := none
          disputed_at := none, created_at := now, updated_at := now }
      (.ok p, { db with payments := db.payments ++ [p] })

/-- `hold_payment` (`PATCH /api/payments/{id}/hold`): requires the payment
to exist, the caller to be its employer, and the current status to be
exactly `pending`; on success the row is patched to `held` with `held_at`
stamped and the worker is notified (best effort). -/
def hold_payment (db : DB) (caller : User) (payment_id : String) (now : Nat) :
    Except ApiError Payment × DB :=
  match db.payments.find? (fun p => decide (p.id = payment_id)) with
  | none => (.error .notFound, db)
  | some payment =>
    if payment.employer_id ≠ caller.sub then (.error .forbidden, db)
    else if payment.status ≠ "pending" then (.error .conflict, db)
    else
      let upd := fun (p : Payment) =>
        if p.id = payment_id then { p with status := "held", held_at := some now } else p
      (.ok { payment with status := "held", held_at := some now },
        { db with
          payments := db.payments.map upd
          notifications := db.notifications ++
            (if (db.jobs.any (fun j => decide (j.id = payment.job_id)))
                && decide (caller.sub ∈ db.users) then
              [⟨"payment_held", payment.worker_id⟩]
            else []) })

/-- `release_payment` (`PATCH /api/payments/{id}/release`): requires the
payment to exist, the caller to be its employer, and the current status to
be exactly `held`; on success the row is patched to `released` with
`released_at` stamped and both parties are notified (best effort). -/
def release_payment (db : DB) (caller : User) (payment_id : String) (now : Nat) :
    Except ApiError Payment × DB :=
  match db.payments.find? (fun p => decide (p.id = payment_id)) with
  | none => (.error .notFound, db)
  | some payment =>
    if payment.employer_id ≠ caller.sub then (.error .forbidden, db)
    else if payment.status ≠ "held" then (.error .conflict, db)
    else
      let upd := fun (p : Payment) =>
        if p.id = payment_id then { p with status := "released", released_at := some now } else p
      (.ok { payment with status := "released", released_at := some now },
        { db with
          payments := db.payments.map upd
          notifications := db.notifications ++
            (if (db.jobs.any (fun j => decide (j.id = payment.job_id)))
                && decide (caller.sub ∈ db.users) && decide (payment.worker_id ∈ db.users) then
              [⟨"payment_released", payment.worker_id⟩,
               ⟨"payment_released_employer", caller.sub⟩]
            else []) })

/-! ## Disputes router (`backend/routers/disputes.py`) -/

/-- The request body of `POST /api/disputes/` (`DisputeCreate`). -/
structure DisputeCreateData where
  payment_id : String
  reason : String
  description : String
deriving DecidableEq, Repr

/-- `create_dispute`: the payment must exist (404) and the caller must be
one of its participants (403); the request is rejected (400) when *any*
dispute row for the payment already exists, whatever its status; on success
an `open` dispute is inserted, the payment row is patched to `disputed`
with `disputed_at` stamped, and both parties are notified (best effort). -/
def create_dispute (db : DB) (caller : User) (data : DisputeCreateData)
    (new_id : String) (now : Nat) : Except ApiError Dispute × DB :=
  match db.payments.find? (fun p => decide (p.id = data.payment_id)) with
  | none => (.error .notFound, db)
  | some payment =>
    if ¬ (caller.sub = payment.employer_id ∨ caller.sub = payment.worker_id) then
      (.error .forbidden, db)
    else if db.disputes.any (fun d => decide (d.payment_id = data.payment_id)) then
      (.error .conflict, db)
    else
      let d : Dispute :=
        { id := new_id, payment_id := data.payment_id, initiator_id := caller.sub
          reason := data.reason, description := data.description, status := "open"
          admin_notes := none, resolution := none, resolved_by := none, resolved_at := none }
      let other := if caller.sub = payment.employer_id then payment.worker_id
        else payment.employer_id
      (.ok d, { db with
        disputes := db.disputes ++ [d]
        payments := db.payments.map (fun p =>
          if p.id = data.payment_id then
            { p with status := "disputed", disputed_at := some now }
          else p)
        notifications := db.notifications ++
          (if caller.sub ∈ db.users ∧ other ∈ db.users then
            [⟨"dispute_opened", other⟩, ⟨"dispute_created", caller.sub⟩]
          else []) })

/-- The request body of `PATCH /api/disputes/{id}` (`DisputeUpdate`):
`status` is required, `admin_notes` and `resolution` are optional. -/
structure DisputeUpdate where
  status : String
  admin_notes : Option String
  resolution : Option String
deriving DecidableEq, Repr

/-- `"favor" in resolution.lower()`: the lower-cased resolution text
contains the substring `favor`. -/
def containsFavorAux : List Char → Bool
  | 'f' :: 'a' :: 'v' :: 'o' :: 'r' :: _ => true
  | _ :: rest => containsFavorAux rest
  | [] => false

/-- `"favor" in s.lower()` on strings. -/
def containsFavor (s : String) : Bool := containsFavorAux (s.data.map Char.toLower)

/-- `update_dispute` (`PATCH /api/disputes/{id}`, admin only): the dispute
row is patched first (status, notes, resolution, and — on transition to
`resolved` — resolver id and resolution time); only then, when the new
status is `resolved`, the linked payment is patched to `released` when the
resolution text contains `favor` (case-insensitively) and to `refunded`
otherwise.  When the status is `resolved` but the resolution is null,
`dispute_update.resolution.lower()` raises, the generic `except Exception`
handler returns a 500, and the payment patch never happens — although the
dispute patch already did. -/
def update_dispute (db : DB) (caller : User) (dispute_id : String)
    (upd : DisputeUpdate) (now : Nat) : Except ApiError Dispute × DB :=
  if is_admin caller = false then (.error .forbidden, db)
  else
    match db.disputes.find? (fun d => decide (d.id = dispute_id)) with
    | none => (.error .notFound, db)
    | some d =>
      let resolvedNow := upd.status = "resolved"
      let patched := fun (x : Dispute) =>
        { x with
          status := upd.status
          admin_notes := upd.admin_notes
          resolution := upd.resolution
          resolved_by := if resolvedNow then some caller.sub else x.resolved_by
          resolved_at := if resolvedNow then some now else x.resolved_at }
      let disputes1 := db.disputes.map (fun x => if x.id = dispute_id then patched x else x)
      let resNotifs := fun (pays : List Payment) =>
        match pays.find? (fun p => decide (p.id = d.payment_id)) with
        | none => ([] : List Notification)
        | some payment =>
          let other := if d.initiator_id = payment.employer_id then payment.worker_id
            else payment.employer_id
          [⟨"dispute_resolved", d.initiator_id⟩, ⟨"dispute_resolved", other⟩]
      if resolvedNow then
        match upd.resolution with
        | none => (.error .internal, { db with disputes := disputes1 })
        | some r =>
          let newStatus := if containsFavor r then "released" else "refunded"
          let pays2 := db.payments.map (fun p =>
            if p.id = d.payment_id then { p with status := newStatus } else p)
          (.ok (patched d), { db with
            disputes := disputes1
            payments := pays2
            notifications := db.notifications ++ resNotifs pays2 })
      else
        (.ok (patched d), { db with
          disputes := disputes1
          notifications := db.notifications ++ resNotifs db.payments })

/-! ## Witness fixtures: a tiny concrete world -/

/-- A concrete job for witness instantiation. -/
def wJob : Job := ⟨"J1", "E", "W", "title"⟩

/-- A concrete pending payment for job `J1`. -/
def wPaymentPending : Payment :=
  ⟨"p1", "J1", "E", "W", 100, "pending", none, none, none, none, none, none, 0, 0⟩

/-- The same payment after entering `disputed`. -/
def wPaymentDisputed : Payment := { wPaymentPending with status := "disputed", disputed_at := some 1 }

/-- A concrete open dispute on payment `p1`. -/
def wDisputeOpen : Dispute :=
  ⟨"d1", "p1", "E", "payment_issue", "a description", "open", none, none, none, none⟩

/-- A concrete administrator. -/
def wAdmin : User := ⟨"A", some "admin", false⟩

/-- The employer of `wJob`, a non-admin caller. -/
def wEmployer : User := ⟨"E", none, false⟩

/-- A store holding the job, its two users and the pending payment. -/
def wDB : DB := ⟨[wJob], ["E", "W"], [wPaymentPending], [], []⟩

/-- A store in which `p1` is disputed and dispute `d1` is open on it. -/
def wDBDisputed : DB := ⟨[wJob], ["E", "W"], [wPaymentDisputed], [wDisputeOpen], []⟩

/-! ## C4: the status mapper -/

/-- **C4.** The status mapper is a total, deterministic, side-effect-free
function on all external status strings: approved maps to held, pending to
pending, rejected to disputed, cancelled to disputed, refunded to refunded,
charged_back to disputed, and every other string maps to pending. -/
theorem status_mapper_total_deterministic :
    map_mp_status_to_internal "approved" = "held" ∧
    map_mp_status_to_internal "pending" = "pending" ∧
    map_mp_status_to_internal "rejected" = "disputed" ∧
    map_mp_status_to_internal "cancelled" = "disputed" ∧
    map_mp_status_to_internal "refunded" = "refunded" ∧
    map_mp_status_to_internal "charged_back" = "disputed" ∧
    ∀ s : String, s ≠ "approved" → s ≠ "pending" → s ≠ "rejected" → s ≠ "cancelled" →
      s ≠ "refunded" → s ≠ "charged_back" → map_mp_status_to_internal s = "pending" := by
  refine ⟨by decide, by decide, by decide, by decide, by decide, by decide, ?_⟩
  intro s h1 h2 h3 h4 h5 h6
  simp only [map_mp_status_to_internal, if_neg h1, if_neg h2, if_neg h3, if_neg h4,
    if_neg h5, if_neg h6]

/-- Witness for C4: an unknown external status maps to `pending`. -/
theorem status_mapper_total_deterministic_witness :
    map_mp_status_to_internal "in_process" = "pending" :=
  status_mapper_total_deterministic.2.2.2.2.2.2 "in_process" (by decide) (by decide)
    (by decide) (by decide) (by decide) (by decide)

/-! ## C3: invalid signature rejects before any state change -/

/-- **C3.** For every webhook delivery whose signature does not match the
HMAC-SHA256 of the raw body under the configured secret, `process_webhook`
returns an error result and rejects the event before any state change: the
store (payments, disputes, notifications) is untouched and no fetch, sleep
or store-update effect is performed. -/
theorem invalid_signature_rejects_without_state_change
    (cfg : ServiceCfg) (env : WebhookEnv) (payload signature : String)
    (now : Nat) (db : DB) (sec : String)
    (hsec : env.secret = some sec)
    (hsig : signature ≠ env.hmacHex sec payload) :
    (process_webhook cfg env payload signature now db).result = ⟨"error", "Invalid signature"⟩ ∧
    (process_webhook cfg env payload signature now db).db = db ∧
    (process_webhook cfg env payload signature now db).effects = [] := by
  have hv : validate_webhook_signature env payload signature = false := by
    simp [validate_webhook_signature, hsec, hsig]
  simp [process_webhook, hv]

/-- Witness for C3 at a concrete mismatched delivery. -/
theorem invalid_signature_rejects_without_state_change_witness :
    (process_webhook defaultService
        ⟨some "s", fun _ _ => "good", fun _ => .paymentId "mp1",
          fun _ => some ⟨some "job_J1", some "approved", 100⟩, fun _ => true⟩
        "body" "bad" 0 wDB).result = ⟨"error", "Invalid signature"⟩ ∧
    (process_webhook defaultService
        ⟨some "s", fun _ _ => "good", fun _ => .paymentId "mp1",
          fun _ => some ⟨some "job_J1", some "approved", 100⟩, fun _ => true⟩
        "body" "bad" 0 wDB).db = wDB ∧
    (process_webhook defaultService
        ⟨some "s", fun _ _ => "good", fun _ => .paymentId "mp1",
          fun _ => some ⟨some "job_J1", some "approved", 100⟩, fun _ => true⟩
        "body" "bad" 0 wDB).effects = [] :=
  invalid_signature_rejects_without_state_change defaultService _ "body" "bad" 0 wDB "s"
    rfl (by decide)

/-! ## C5: hold and release state guards -/

/-- **C5.** For every existing payment, hold succeeds only when the caller
is the payment's employer and the current status is exactly `pending`,
failing with `Conflict` on any other status and `Forbidden` for a
non-employer caller; release succeeds only when the caller is the employer
and the current status is exactly `held`, failing with `Conflict` on any
other status. -/
theorem hold_release_state_guards (db : DB) (caller : User) (pid : String) (now : Nat)
    (p : Payment) (hp : db.payments.find? (fun q => decide (q.id = pid)) = some p) :
    (caller.sub ≠ p.employer_id →
      hold_payment db caller pid now = (.error .forbidden, db) ∧
      release_payment db caller pid now = (.error .forbidden, db)) ∧
    (caller.sub = p.employer_id → p.status ≠ "pending" →
      hold_payment db caller pid now = (.error .conflict, db)) ∧
    (caller.sub = p.employer_id → p.status = "pending" →
      (hold_payment db caller pid now).1 =
        .ok { p with status := "held", held_at := some now }) ∧
    (caller.sub = p.employer_id → p.status ≠ "held" →
      release_payment db caller pid now = (.error .conflict, db)) ∧
    (caller.sub = p.employer_id → p.status = "held" →
      (release_payment db caller pid now).1 =
        .ok { p with status := "released", released_at := some now }) := by
  refine ⟨fun hne => ?_, fun he hs => ?_, fun he hs => ?_, fun he hs => ?_, fun he hs => ?_⟩
  · have hne' : p.employer_id ≠ caller.sub := fun h => hne h.symm
    constructor <;> simp [hold_payment, release_payment, hp, hne']
  · simp [hold_payment, hp, he, hs]
  · simp [hold_payment, hp, he, hs]
  · simp [release_payment, hp, he, hs]
  · simp [release_payment, hp, he, hs]

/-- Witness for C5: on the concrete pending payment `p1`, hold by the
employer succeeds and release is rejected with a conflict. -/
theorem hold_release_state_guards_witness :
    (wEmployer.sub = wPaymentPending.employer_id → wPaymentPending.status = "pending" →
      (hold_payment wDB wEmployer "p1" 3).1 =
        .ok { wPaymentPending with status := "held", held_at := some 3 }) ∧
    (wEmployer.sub = wPaymentPending.employer_id → wPaymentPending.status ≠ "held" →
      release_payment wDB wEmployer "p1" 3 = (.error .conflict, wDB)) :=
  ⟨(hold_release_state_guards wDB wEmployer "p1" 3 wPaymentPending (by decide)).2.2.1,
   (hold_release_state_guards wDB wEmployer "p1" 3 wPaymentPending (by decide)).2.2.2.1⟩

/-! ## C6: dispute creation guards -/

/-- **C6.** For every payment, opening a dispute fails with `NotFound` if
the payment is unknown, `Forbidden` if the initiator is neither the
payment's employer nor its worker, and `Conflict` if an open dispute
already exists for that payment; on success the new dispute has status
`open` and the payment's status is set to `disputed` with `disputed_at`
stamped. -/
theorem create_dispute_guards (db : DB) (caller : User) (data : DisputeCreateData)
    (new_id : String) (now : Nat) :
    (db.payments.find? (fun p => decide (p.id = data.payment_id)) = none →
      create_dispute db caller data new_id now = (.error .notFound, db)) ∧
    ∀ payment, db.payments.find? (fun p => decide (p.id = data.payment_id)) = some payment →
      (¬ (caller.sub = payment.employer_id ∨ caller.sub = payment.worker_id) →
        create_dispute db caller data new_id now = (.error .forbidden, db)) ∧
      ((caller.sub = payment.employer_id ∨ caller.sub = payment.worker_id) →
        (∃ d ∈ db.disputes, d.payment_id = data.payment_id ∧ d.status = "open") →
        create_dispute db caller data new_id now = (.error .conflict, db)) ∧
      ((caller.sub = payment.employer_id ∨ caller.sub = payment.worker_id) →
        (∀ d ∈ db.disputes, d.payment_id ≠ data.payment_id) →
        ∃ dnew, (create_dispute db caller data new_id now).1 = .ok dnew ∧
          dnew.status = "open" ∧ dnew.payment_id = data.payment_id ∧
          dnew.initiator_id = caller.sub ∧
          ∀ p ∈ (create_dispute db caller data new_id now).2.payments,
            p.id = data.payment_id → p.status = "disputed" ∧ p.disputed_at = some now) := by
  refine ⟨fun hnone => by simp [create_dispute, hnone], ?_⟩
  intro payment hfind
  refine ⟨fun hpart => by simp [create_dispute, hfind, hpart], fun hpart hex => ?_,
    fun hpart hno => ?_⟩
  · have hany : db.disputes.any (fun d => decide (d.payment_id = data.payment_id)) = true := by
      obtain ⟨d, hd, hdp, _⟩ := hex
      exact List.any_eq_true.mpr ⟨d, hd, by simp [hdp]⟩
    simp [create_dispute, hfind, hpart, hany]
  · have hany : db.disputes.any (fun d => decide (d.payment_id = data.payment_id)) = false := by
      rw [List.any_eq_false]
      intro d hd
      simp [hno d hd]
    have hres2 : (create_dispute db caller data new_id now).2.payments =
        db.payments.map (fun q =>
          if q.id = data.payment_id then
            { q with status := "disputed", disputed_at := some now }
          else q) := by
      simp [create_dispute, hfind, hpart, hany]
    refine ⟨⟨new_id, data.payment_id, caller.sub, data.reason, data.description, "open",
      none, none, none, none⟩, by simp [create_dispute, hfind, hpart, hany], rfl, rfl, rfl, ?_⟩
    rw [hres2]
    intro p hp hpid
    obtain ⟨q, _, hq⟩ := List.mem_map.mp hp
    by_cases hqid : q.id = data.payment_id
    · rw [if_pos hqid] at hq
      rw [← hq]
      exact ⟨rfl, rfl⟩
    · rw [if_neg hqid] at hq
      rw [← hq] at hpid
      exact absurd hpid hqid

/-- Witness for C6: on the concrete store, the employer opens a dispute on
the pending payment `p1`; it is created `open` and `p1` becomes
`disputed`. -/
theorem create_dispute_guards_witness :
    ∃ dnew,
      (create_dispute wDB wEmployer ⟨"p1", "other", "a description"⟩ "d1" 4).1 = .ok dnew ∧
      dnew.status = "open" ∧ dnew.payment_id = "p1" ∧ dnew.initiator_id = wEmployer.sub ∧
      ∀ p ∈ (create_dispute wDB wEmployer ⟨"p1", "other", "a description"⟩ "d1" 4).2.payments,
        p.id = "p1" → p.status = "disputed" ∧ p.disputed_at = some 4 :=
  ((create_dispute_guards wDB wEmployer ⟨"p1", "other", "a description"⟩ "d1" 4).2
    wPaymentPending (by decide)).2.2 (by decide) (by decide)

/-! ## C2 (corrected) and C10: dispute resolution -/

/-- Counterexample to C2 as stated: resolving dispute `d1` with a null
resolution text returns an internal error and leaves the linked payment
`disputed` — it is not set to `released` or `refunded`. -/
theorem dispute_resolution_null_counterexample :
    (update_dispute wDBDisputed wAdmin "d1" ⟨"resolved", none, none⟩ 9).1 =
        .error .internal ∧
    (update_dispute wDBDisputed wAdmin "d1" ⟨"resolved", none, none⟩ 9).2.payments.map
        (fun p => p.status) = ["disputed"] := by decide

/-- **C2 (amended).** For every dispute and every admin caller, updating
the dispute to status `resolved` *with a resolution text supplied*
always sets the linked payment's status to exactly one of `released` or
`refunded`, never leaving it `disputed`: `released` if the resolution text
contains the marker `favor` (case-insensitively), `refunded` otherwise; it
also stamps the resolver id and resolution time on the dispute. -/
theorem dispute_resolution_sets_terminal_status
    (db : DB) (caller : User) (dispute_id : String) (upd : DisputeUpdate) (now : Nat)
    (d : Dispute) (r : String)
    (hadmin : is_admin caller = true)
    (hd : db.disputes.find? (fun x => decide (x.id = dispute_id)) = some d)
    (hst : upd.status = "resolved")
    (hr : upd.resolution = some r) :
    ∃ dres, (update_dispute db caller dispute_id upd now).1 = .ok dres ∧
      dres.status = "resolved" ∧ dres.resolved_by = some caller.sub ∧
      dres.resolved_at = some now ∧
      ∀ p ∈ (update_dispute db caller dispute_id upd now).2.payments, p.id = d.payment_id →
        (p.status = "released" ∨ p.status = "refunded") ∧
        p.status ≠ "disputed" ∧
        p.status = (if containsFavor r then "released" else "refunded") := by
  have hres2 : (update_dispute db caller dispute_id upd now).2.payments =
      db.payments.map (fun p =>
        if p.id = d.payment_id then
          { p with status := if containsFavor r then "released" else "refunded" }
        else p) := by
    simp [update_dispute, hadmin, hd, hst, hr]
  refine ⟨{ d with
      status := "resolved"
      admin_notes := upd.admin_notes
      resolution := some r
      resolved_by := some caller.sub
      resolved_at := some now },
    by simp [update_dispute, hadmin, hd, hst, hr], rfl, rfl, rfl, ?_⟩
  rw [hres2]
  intro p hp hpid
  obtain ⟨q, _, hq⟩ := List.mem_map.mp hp
  by_cases hqid : q.id = d.payment_id
  · rw [if_pos hqid] at hq
    rw [← hq]
    by_cases hfav : containsFavor r
    · simp [hfav]
    · simp [hfav]
  · rw [if_neg hqid] at hq
    rw [← hq] at hpid
    exact absurd hpid hqid

/-- Witness for C2 (amended): the admin resolves with text
"Resolved in FAVOR of worker"; the payment linked to `d1` is released. -/
theorem dispute_resolution_sets_terminal_status_witness :
    ∃ dres,
      (update_dispute wDBDisputed wAdmin "d1"
          ⟨"resolved", none, some "Resolved in FAVOR of worker"⟩ 9).1 = .ok dres ∧
      dres.status = "resolved" ∧ dres.resolved_by = some wAdmin.sub ∧
      dres.resolved_at = some 9 ∧
      ∀ p ∈ (update_dispute wDBDisputed wAdmin "d1"
          ⟨"resolved", none, some "Resolved in FAVOR of worker"⟩ 9).2.payments,
        p.id = wDisputeOpen.payment_id →
        (p.status = "released" ∨ p.status = "refunded") ∧
        p.status ≠ "disputed" ∧
        p.status =
          (if containsFavor "Resolved in FAVOR of worker" then "released" else "refunded") :=
  dispute_resolution_sets_terminal_status wDBDisputed wAdmin "d1"
    ⟨"resolved", none, some "Resolved in FAVOR of worker"⟩ 9 wDisputeOpen
    "Resolved in FAVOR of worker" (by decide) (by decide) rfl rfl

/-- **C10.** Resolving a dispute is not atomic: when `update_dispute` is
called with status `resolved` and a null resolution text, the dispute
record is first updated to `resolved` (with resolver and `resolved_at`
stamped), then the operation fails on the null resolution and returns an
internal error without ever updating the linked payment's status — on this
error path the dispute state has changed while the payments (and the
notification log) have not. -/
theorem dispute_resolution_not_atomic
    (db : DB) (caller : User) (dispute_id : String) (upd : DisputeUpdate) (now : Nat)
    (d : Dispute)
    (hadmin : is_admin caller = true)
    (hd : db.disputes.find? (fun x => decide (x.id = dispute_id)) = some d)
    (hst : upd.status = "resolved")
    (hr : upd.resolution = none) :
    (update_dispute db caller dispute_id upd now).1 = .error .internal ∧
    (update_dispute db caller dispute_id upd now).2.payments = db.payments ∧
    (update_dispute db caller dispute_id upd now).2.notifications = db.notifications ∧
    ∀ x ∈ (update_dispute db caller dispute_id upd now).2.disputes, x.id = dispute_id →
      x.status = "resolved" ∧ x.resolved_by = some caller.sub ∧ x.resolved_at = some now := by
  refine ⟨by simp [update_dispute, hadmin, hd, hst, hr],
    by simp [update_dispute, hadmin, hd, hst, hr],
    by simp [update_dispute, hadmin, hd, hst, hr], ?_⟩
  intro x hx hxid
  simp only [update_dispute, hadmin, hd, hst, hr] at hx
  obtain ⟨y, _, hy⟩ := List.mem_map.mp hx
  by_cases hyid : y.id = dispute_id
  · rw [if_pos hyid] at hy
    rw [← hy]
    simp [hst]
  · rw [if_neg hyid] at hy
    rw [← hy] at hxid
    exact absurd hxid hyid

/-- Witness for C10 on the concrete disputed store. -/
theorem dispute_resolution_not_atomic_witness :
    (update_dispute wDBDisputed wAdmin "d1" ⟨"resolved", none, none⟩ 9).1 =
        .error .internal ∧
    (update_dispute wDBDisputed wAdmin "d1" ⟨"resolved", none, none⟩ 9).2.payments =
        wDBDisputed.payments ∧
    (update_dispute wDBDisputed wAdmin "d1" ⟨"resolved", none, none⟩ 9).2.notifications =
        wDBDisputed.notifications ∧
    ∀ x ∈ (update_dispute wDBDisputed wAdmin "d1" ⟨"resolved", none, none⟩ 9).2.disputes,
      x.id = "d1" →
      x.status = "resolved" ∧ x.resolved_by = some wAdmin.sub ∧ x.resolved_at = some 9 :=
  dispute_resolution_not_atomic wDBDisputed wAdmin "d1" ⟨"resolved", none, none⟩ 9
    wDisputeOpen (by decide) (by decide) rfl rfl

/-! ## Frame lemmas: which tables each operation can touch -/

/-- The job ids of the payment rows, in store order. -/
def paymentJobIds (db : DB) : List String := db.payments.map (fun p => p.job_id)

/-- The payment ids of the dispute rows, in store order. -/
def disputePaymentIds (db : DB) : List String := db.disputes.map (fun d => d.payment_id)

theorem applyPaymentUpdate_job_id (jobId pid : String) (ms : Option String)
    (internal : String) (now : Nat) (p : Payment) :
    (applyPaymentUpdate jobId pid ms internal now p).job_id = p.job_id := by
  unfold applyPaymentUpdate
  split <;> rfl

theorem map_job_id_preserved (ps : List Payment) (f : Payment → Payment)
    (hf : ∀ p, (f p).job_id = p.job_id) :
    (ps.map f).map (fun p => p.job_id) = ps.map (fun p => p.job_id) := by
  rw [List.map_map]
  exact List.map_congr_left (fun p _ => hf p)

theorem process_payment_event_frame (env : WebhookEnv) (pid : String) (m : MPPayment)
    (now attempt : Nat) (db : DB) :
    (process_payment_event env pid m now attempt db).db.jobs = db.jobs ∧
    (process_payment_event env pid m now attempt db).db.users = db.users ∧
    (process_payment_event env pid m now attempt db).db.disputes = db.disputes ∧
    paymentJobIds (process_payment_event env pid m now attempt db).db = paymentJobIds db := by
  unfold process_payment_event
  dsimp only
  repeat' split
  all_goals
    first
      | exact ⟨rfl, rfl, rfl, rfl⟩
      | · refine ⟨rfl, rfl, rfl, ?_⟩
          simp only [paymentJobIds]
          exact map_job_id_preserved _ _ (applyPaymentUpdate_job_id _ _ _ _ _)

theorem reconcileLoop_frame (cfg : ServiceCfg) (env : WebhookEnv) (pid : String) (now : Nat) :
    ∀ (fuel attempt : Nat) (db : DB),
    (reconcileLoop cfg env pid now attempt fuel db).db.jobs = db.jobs ∧
    (reconcileLoop cfg env pid now attempt fuel db).db.users = db.users ∧
    (reconcileLoop cfg env pid now attempt fuel db).db.disputes = db.disputes ∧
    paymentJobIds (reconcileLoop cfg env pid now attempt fuel db).db = paymentJobIds db := by
  intro fuel
  induction fuel with
  | zero => exact fun attempt db => ⟨rfl, rfl, rfl, rfl⟩
  | succ fuel ih =>
    intro attempt db
    rw [reconcileLoop]
    cases hf : env.fetchResults attempt with
    | none =>
      dsimp only
      by_cases h0 : fuel = 0
      · rw [if_pos h0]
        exact ⟨rfl, rfl, rfl, rfl⟩
      · rw [if_neg h0]
        exact ih (attempt + 1) db
    | some m =>
      dsimp only
      obtain ⟨hj, hu, hd, hids⟩ := process_payment_event_frame env pid m now attempt db
      cases hok : (process_payment_event env pid m now attempt db).ok with
      | true =>
        rw [if_pos rfl]
        exact ⟨hj, hu, hd, hids⟩
      | false =>
        rw [if_neg Bool.false_ne_true]
        by_cases h0 : fuel = 0
        · rw [if_pos h0]
          exact ⟨hj, hu, hd, hids⟩
        · rw [if_neg h0]
          obtain ⟨hj2, hu2, hd2, hids2⟩ :=
            ih (attempt + 1) (process_payment_event env pid m now attempt db).db
          exact ⟨hj2.trans hj, hu2.trans hu, hd2.trans hd, hids2.trans hids⟩

theorem process_webhook_frame (cfg : ServiceCfg) (env : WebhookEnv)
    (payload signature : String) (now : Nat) (db : DB) :
    (process_webhook cfg env payload signature now db).db.jobs = db.jobs ∧
    (process_webhook cfg env payload signature now db).db.users = db.users ∧
    (process_webhook cfg env payload signature now db).db.disputes = db.disputes ∧
    paymentJobIds (process_webhook cfg env payload signature now db).db = paymentJobIds db := by
  unfold process_webhook
  split
  · exact ⟨rfl, rfl, rfl, rfl⟩
  · split
    · exact ⟨rfl, rfl, rfl, rfl⟩
    · exact ⟨rfl, rfl, rfl, rfl⟩
    · exact reconcileLoop_frame cfg env _ now cfg.max_retries 0 db

theorem create_payment_disputes (db : DB) (caller : User) (job_id : String) (amount : Int)
    (mp_pref : Option String) (new_id : String) (now : Nat) :
    (create_payment db caller job_id amount mp_pref new_id now).2.disputes = db.disputes := by
  unfold create_payment
  split
  · rfl
  · split
    · rfl
    · split <;> rfl

theorem create_payment_jobIds (db : DB) (caller : User) (job_id : String) (amount : Int)
    (mp_pref : Option String) (new_id : String) (now : Nat) :
    paymentJobIds (create_payment db caller job_id amount mp_pref new_id now).2 =
        paymentJobIds db ∨
    (paymentJobIds (create_payment db caller job_id amount mp_pref new_id now).2 =
        paymentJobIds db ++ [job_id] ∧ job_id ∉ paymentJobIds db) := by
  unfold create_payment
  split
  · exact Or.inl rfl
  · split
    · exact Or.inl rfl
    · split
      · exact Or.inl rfl
      · next hany =>
        refine Or.inr ⟨by simp [paymentJobIds], ?_⟩
        intro hmem
        obtain ⟨q, hq, hqid⟩ := List.mem_map.mp hmem
        have := List.any_eq_false.mp (Bool.of_not_eq_true hany) q hq
        simp [hqid] at this

theorem hold_payment_disputes (db : DB) (caller : User) (pid : String) (now : Nat) :
    (hold_payment db caller pid now).2.disputes = db.disputes := by
  unfold hold_payment
  split
  · rfl
  · split
    · rfl
    · split <;> rfl

theorem hold_payment_jobIds (db : DB) (caller : User) (pid : String) (now : Nat) :
    paymentJobIds (hold_payment db caller pid now).2 = paymentJobIds db := by
  unfold hold_payment
  split
  · rfl
  · split
    · rfl
    · split
      · rfl
      · simp only [paymentJobIds]
        refine map_job_id_preserved _ _ (fun p => ?_)
        split <;> rfl

theorem release_payment_disputes (db : DB) (caller : User) (pid : String) (now : Nat) :
    (release_payment db caller pid now).2.disputes = db.disputes := by
  unfold release_payment
  split
  · rfl
  · split
    · rfl
    · split <;> rfl

theorem release_payment_jobIds (db : DB) (caller : User) (pid : String) (now : Nat) :
    paymentJobIds (release_payment db caller pid now).2 = paymentJobIds db := by
  unfold release_payment
  split
  · rfl
  · split
    · rfl
    · split
      · rfl
      · simp only [paymentJobIds]
        refine map_job_id_preserved _ _ (fun p => ?_)
        split <;> rfl

theorem create_dispute_jobIds (db : DB) (caller : User) (data : DisputeCreateData)
    (new_id : String) (now : Nat) :
    paymentJobIds (create_dispute db caller data new_id now).2 = paymentJobIds db := by
  unfold create_dispute
  split
  · rfl
  · split
    · rfl
    · split
      · rfl
      · simp only [paymentJobIds]
        refine map_job_id_preserved _ _ (fun p => ?_)
        split <;> rfl

theorem create_dispute_disputeIds (db : DB) (caller : User) (data : DisputeCreateData)
    (new_id : String) (now : Nat) :
    disputePaymentIds (create_dispute db caller data new_id now).2 = disputePaymentIds db ∨
    (disputePaymentIds (create_dispute db caller data new_id now).2 =
        disputePaymentIds db ++ [data.payment_id] ∧
      data.payment_id ∉ disputePaymentIds db) := by
  unfold create_dispute
  split
  · exact Or.inl rfl
  · split
    · exact Or.inl rfl
    · split
      · exact Or.inl rfl
      · next hany =>
        refine Or.inr ⟨by simp [disputePaymentIds], ?_⟩
        intro hmem
        obtain ⟨q, hq, hqid⟩ := List.mem_map.mp hmem
        have := List.any_eq_false.mp (Bool.of_not_eq_true hany) q hq
        simp [hqid] at this

theorem update_dispute_jobIds (db : DB) (caller : User) (dispute_id : String)
    (upd : DisputeUpdate) (now : Nat) :
    paymentJobIds (update_dispute db caller dispute_id upd now).2 = paymentJobIds db := by
  unfold update_dispute
  dsimp only
  repeat' split
  all_goals
    first
      | rfl
      | (simp only [paymentJobIds]
         refine map_job_id_preserved _ _ (fun p => ?_)
         split <;> rfl)

theorem update_dispute_disputeIds (db : DB) (caller : User) (dispute_id : String)
    (upd : DisputeUpdate) (now : Nat) :
    disputePaymentIds (update_dispute db caller dispute_id upd now).2 =
      disputePaymentIds db := by
  have hmap : ∀ (f : Dispute → Dispute), (∀ d, (f d).payment_id = d.payment_id) →
      (db.disputes.map f).map (fun d => d.payment_id) =
        db.disputes.map (fun d => d.payment_id) := by
    intro f hf
    rw [List.map_map]
    exact List.map_congr_left (fun d _ => hf d)
  unfold update_dispute
  dsimp only
  repeat' split
  all_goals
    first
      | rfl
      | (simp only [disputePaymentIds]
         refine hmap _ (fun d => ?_)
         split <;> rfl)

/-! ## Reachable store states -/

/-- One transition of the store: an externally created job or user row, or
one invocation of any of the embedded endpoints with arbitrary request
data. -/
inductive Step : DB → DB → Prop where
  | addJob (db : DB) (j : Job) : Step db { db with jobs := db.jobs ++ [j] }
  | addUser (db : DB) (u : String) : Step db { db with users := db.users ++ [u] }
  | createPayment (db : DB) (caller : User) (job_id : String) (amount : Int)
      (mp_pref : Option String) (new_id : String) (now : Nat) :
      Step db (create_payment db caller job_id amount mp_pref new_id now).2
  | holdPayment (db : DB) (caller : User) (pid : String) (now : Nat) :
      Step db (hold_payment db caller pid now).2
  | releasePayment (db : DB) (caller : User) (pid : String) (now : Nat) :
      Step db (release_payment db caller pid now).2
  | createDispute (db : DB) (caller : User) (data : DisputeCreateData)
      (new_id : String) (now : Nat) :
      Step db (create_dispute db caller data new_id now).2
  | updateDispute (db : DB) (caller : User) (dispute_id : String) (upd : DisputeUpdate)
      (now : Nat) :
      Step db (update_dispute db caller dispute_id upd now).2
  | webhook (db : DB) (cfg : ServiceCfg) (env : WebhookEnv) (payload signature : String)
      (now : Nat) :
      Step db (process_webhook cfg env payload signature now db).db

/-- The store states reachable from the empty store through the embedded
operations. -/
inductive Reachable : DB → Prop where
  | init : Reachable ⟨[], [], [], [], []⟩
  | step {db db' : DB} : Reachable db → Step db db' → Reachable db'

/-- Appending a fresh id keeps a nodup id list nodup. -/
theorem nodup_append_fresh {l : List String} {a : String}
    (h : l.Nodup) (ha : a ∉ l) : (l ++ [a]).Nodup := by
  refine List.Nodup.append h (List.nodup_singleton a) ?_
  intro x hx hxa
  rw [List.mem_singleton] at hxa
  exact ha (hxa ▸ hx)

/-- Every reachable store has at most one payment per job and at most one
dispute per payment. -/
theorem reachable_store_unique (db : DB) (h : Reachable db) :
    (paymentJobIds db).Nodup ∧ (disputePaymentIds db).Nodup := by
  induction h with
  | init => exact ⟨List.nodup_nil, List.nodup_nil⟩
  | @step db db' _ s ih =>
    obtain ⟨hp, hd⟩ := ih
    cases s with
    | addJob j => exact ⟨hp, hd⟩
    | addUser u => exact ⟨hp, hd⟩
    | createPayment caller job_id amount mp_pref new_id now =>
      refine ⟨?_, by rw [show disputePaymentIds (create_payment db caller job_id amount
        mp_pref new_id now).2 = disputePaymentIds db from
          congrArg (List.map _) (create_payment_disputes ..)]; exact hd⟩
      rcases create_payment_jobIds db caller job_id amount mp_pref new_id now with
        heq | ⟨heq, hnotin⟩
      · rw [heq]; exact hp
      · rw [heq]; exact nodup_append_fresh hp hnotin
    | holdPayment caller pid now =>
      refine ⟨by rw [hold_payment_jobIds]; exact hp, ?_⟩
      rw [show disputePaymentIds (hold_payment db caller pid now).2 = disputePaymentIds db
        from congrArg (List.map _) (hold_payment_disputes ..)]
      exact hd
    | releasePayment caller pid now =>
      refine ⟨by rw [release_payment_jobIds]; exact hp, ?_⟩
      rw [show disputePaymentIds (release_payment db caller pid now).2 = disputePaymentIds db
        from congrArg (List.map _) (release_payment_disputes ..)]
      exact hd
    | createDispute caller data new_id now =>
      refine ⟨by rw [create_dispute_jobIds]; exact hp, ?_⟩
      rcases create_dispute_disputeIds db caller data new_id now with heq | ⟨heq, hnotin⟩
      · rw [heq]; exact hd
      · rw [heq]; exact nodup_append_fresh hd hnotin
    | updateDispute caller dispute_id upd now =>
      exact ⟨by rw [update_dispute_jobIds]; exact hp,
        by rw [update_dispute_disputeIds]; exact hd⟩
    | webhook cfg env payload signature now =>
      obtain ⟨_, _, hdisp, hids⟩ := process_webhook_frame cfg env payload signature now db
      exact ⟨by rw [hids]; exact hp,
        by rw [show disputePaymentIds (process_webhook cfg env payload signature now db).db =
          disputePaymentIds db from congrArg (List.map _) hdisp]; exact hd⟩

/-! ## C7: one payment per job -/

/-- **C7.** For every job and every valid amount `a > 0`, creating a
payment for a job that already has a payment record fails with `Conflict`
and creates no second record (the store is returned unchanged), so at
every reachable state there is at most one payment per job. -/
theorem payment_creation_unique_per_job
    (db : DB) (caller : User) (job_id : String) (a1 a2 : Int)
    (pref1 pref2 : Option String) (id1 id2 : String) (now1 now2 : Nat)
    (p : Payment) (db1 : DB)
    (ha1 : 0 < a1) (ha2 : 0 < a2)
    (hfirst : create_payment db caller job_id a1 pref1 id1 now1 = (.ok p, db1)) :
    create_payment db1 caller job_id a2 pref2 id2 now2 = (.error .conflict, db1) ∧
    ∀ dbr : DB, Reachable dbr → (paymentJobIds dbr).Nodup := by
  refine ⟨?_, fun dbr hr => (reachable_store_unique dbr hr).1⟩
  unfold create_payment at hfirst
  split at hfirst
  · exact absurd (congrArg Prod.fst hfirst) (by simp)
  · next job hjob =>
    split at hfirst
    · exact absurd (congrArg Prod.fst hfirst) (by simp)
    · next hemp =>
      split at hfirst
      · exact absurd (congrArg Prod.fst hfirst) (by simp)
      · next hany =>
        have hdb1 := congrArg Prod.snd hfirst
        dsimp only at hdb1
        rw [← hdb1]
        have hemp' : ¬ job.employer_id ≠ caller.sub := hemp
        simp [create_payment, hjob, hemp', List.any_append]

/-- Witness for C7: the employer creates a payment for job `J1` on a store
with no payments; creating again for the same job is rejected with a
conflict, and the resulting store has at most one payment per job. -/
theorem payment_creation_unique_per_job_witness :
    create_payment (create_payment ⟨[wJob], ["E", "W"], [], [], []⟩ wEmployer
        "J1" 100 none "p1" 0).2 wEmployer "J1" 50 none "p2" 1 =
      (.error .conflict, (create_payment ⟨[wJob], ["E", "W"], [], [], []⟩ wEmployer
        "J1" 100 none "p1" 0).2) ∧
    (paymentJobIds (create_payment ⟨[wJob], ["E", "W"], [], [], []⟩ wEmployer
        "J1" 100 none "p1" 0).2).Nodup := by
  have h := payment_creation_unique_per_job ⟨[wJob], ["E", "W"], [], [], []⟩ wEmployer
    "J1" 100 50 none none "p1" "p2" 0 1 wPaymentPending
    (create_payment ⟨[wJob], ["E", "W"], [], [], []⟩ wEmployer "J1" 100 none "p1" 0).2
    (by decide) (by decide) (by decide)
  refine ⟨h.1, h.2 _ ?_⟩
  exact Reachable.step (Reachable.step (Reachable.step (Reachable.step Reachable.init
    (Step.addJob _ wJob)) (Step.addUser _ "E")) (Step.addUser _ "W"))
    (Step.createPayment _ wEmployer "J1" 100 none "p1" 0)

/-! ## C9: at most one dispute per payment, whatever its status -/

/-- **C9.** Dispute creation rejects with `Conflict` whenever any dispute
record exists for the payment, regardless of that dispute's status (the
existence check does not filter by status): for every payment at most one
dispute is ever created through this endpoint (every reachable store has
at most one dispute per payment), and in particular a payment whose
dispute was already resolved can never be disputed again. -/
theorem dispute_creation_unique_per_payment
    (db : DB) (caller : User) (data : DisputeCreateData) (new_id : String) (now : Nat)
    (payment : Payment) (d : Dispute)
    (hfind : db.payments.find? (fun p => decide (p.id = data.payment_id)) = some payment)
    (hpart : caller.sub = payment.employer_id ∨ caller.sub = payment.worker_id)
    (hd : d ∈ db.disputes) (hdp : d.payment_id = data.payment_id) :
    create_dispute db caller data new_id now = (.error .conflict, db) ∧
    ∀ dbr : DB, Reachable dbr → (disputePaymentIds dbr).Nodup := by
  refine ⟨?_, fun dbr hr => (reachable_store_unique dbr hr).2⟩
  have hany : db.disputes.any (fun x => decide (x.payment_id = data.payment_id)) = true :=
    List.any_eq_true.mpr ⟨d, hd, by simp [hdp]⟩
  simp [create_dispute, hfind, hpart, hany]

/-- The dispute `d1` after being resolved. -/
def wDisputeResolved : Dispute := { wDisputeOpen with status := "resolved" }

/-- A store in which payment `p1` already has a resolved dispute. -/
def wDBResolved : DB := ⟨[wJob], ["E", "W"], [wPaymentDisputed], [wDisputeResolved], []⟩

/-- Witness for C9: even though the only dispute on `p1` is `resolved`,
opening a new dispute on `p1` is rejected with a conflict. -/
theorem dispute_creation_unique_per_payment_witness :
    create_dispute wDBResolved wEmployer ⟨"p1", "other", "a description"⟩ "d2" 5 =
      (.error .conflict, wDBResolved) ∧
    (disputePaymentIds ⟨[], [], [], [], []⟩).Nodup := by
  have h := dispute_creation_unique_per_payment wDBResolved wEmployer
    ⟨"p1", "other", "a description"⟩ "d2" 5 wPaymentDisputed wDisputeResolved
    (by decide) (by decide) (by decide) (by decide)
  exact ⟨h.1, h.2 _ Reachable.init⟩

/-! ## C8: bounded retries with linear backoff -/

/-- Whether an effect is a processor fetch attempt. -/
def isFetch : Eff → Bool
  | .fetch _ => true
  | _ => false

/-- Whether an effect is a store-update attempt. -/
def isStore : Eff → Bool
  | .storeUpdate _ => true
  | _ => false

/-- The number of processor fetch attempts in a run. -/
def fetchCount (log : List Eff) : Nat := (log.filter isFetch).length

/-- The number of store-update attempts in a run. -/
def updateCount (log : List Eff) : Nat := (log.filter isStore).length

/-- The `asyncio.sleep` durations of a run, in order. -/
def sleepsOf (log : List Eff) : List Nat :=
  log.filterMap fun e => match e with
    | .sleep d => some d
    | _ => none

theorem process_payment_event_effects (env : WebhookEnv) (pid : String) (m : MPPayment)
    (now attempt : Nat) (db : DB) :
    (process_payment_event env pid m now attempt db).effects = [] ∨
    (process_payment_event env pid m now attempt db).effects = [.storeUpdate attempt] := by
  unfold process_payment_event
  dsimp only
  repeat' split
  all_goals first | exact Or.inl rfl | exact Or.inr rfl

theorem prefix_cons_cons {a : Nat} {l1 l2 : List Nat} (h : l1 <+: l2) :
    a :: l1 <+: a :: l2 := by
  obtain ⟨t, ht⟩ := h
  exact ⟨t, by simp [← ht]⟩

theorem reconcileLoop_fetchCount (cfg : ServiceCfg) (env : WebhookEnv) (pid : String)
    (now : Nat) : ∀ (fuel attempt : Nat) (db : DB),
    fetchCount (reconcileLoop cfg env pid now attempt fuel db).effects ≤ fuel := by
  intro fuel
  induction fuel with
  | zero =>
    intro attempt db
    simp [reconcileLoop, fetchCount]
  | succ fuel ih =>
    intro attempt db
    rw [reconcileLoop]
    cases hf : env.fetchResults attempt with
    | none =>
      dsimp only
      by_cases h0 : fuel = 0
      · rw [if_pos h0]
        simp [fetchCount, isFetch]
      · rw [if_neg h0]
        have := ih (attempt + 1) db
        simp only [fetchCount, List.filter, isFetch, List.length_cons] at this ⊢
        omega
    | some m =>
      dsimp only
      have hev0 : List.filter isFetch (process_payment_event env pid m now attempt db).effects
          = [] := by
        rcases process_payment_event_effects env pid m now attempt db with h | h <;>
          simp [h, isFetch]
      cases hok : (process_payment_event env pid m now attempt db).ok with
      | true =>
        rw [if_pos rfl]
        simp [fetchCount, isFetch, List.filter_cons, hev0]
      | false =>
        rw [if_neg Bool.false_ne_true]
        by_cases h0 : fuel = 0
        · rw [if_pos h0]
          simp [fetchCount, isFetch, List.filter_cons, hev0]
        · rw [if_neg h0]
          have hrest := ih (attempt + 1) (process_payment_event env pid m now attempt db).db
          simp [fetchCount, isFetch, List.filter_cons, List.filter_append, hev0] at hrest ⊢
          omega

theorem reconcileLoop_updateCount (cfg : ServiceCfg) (env : WebhookEnv) (pid : String)
    (now : Nat) : ∀ (fuel attempt : Nat) (db : DB),
    updateCount (reconcileLoop cfg env pid now attempt fuel db).effects ≤ fuel := by
  intro fuel
  induction fuel with
  | zero =>
    intro attempt db
    simp [reconcileLoop, updateCount]
  | succ fuel ih =>
    intro attempt db
    rw [reconcileLoop]
    cases hf : env.fetchResults attempt with
    | none =>
      dsimp only
      by_cases h0 : fuel = 0
      · rw [if_pos h0]
        simp [updateCount, isStore]
      · rw [if_neg h0]
        have := ih (attempt + 1) db
        simp only [updateCount, List.filter, isStore, List.length_cons] at this ⊢
        omega
    | some m =>
      dsimp only
      have hev1 : (List.filter isStore
          (process_payment_event env pid m now attempt db).effects).length ≤ 1 := by
        rcases process_payment_event_effects env pid m now attempt db with h | h <;>
          simp [h, isStore]
      cases hok : (process_payment_event env pid m now attempt db).ok with
      | true =>
        rw [if_pos rfl]
        simp [updateCount, isStore, List.filter_cons]
        omega
      | false =>
        rw [if_neg Bool.false_ne_true]
        by_cases h0 : fuel = 0
        · rw [if_pos h0]
          simp [updateCount, isStore, List.filter_cons]
          omega
        · rw [if_neg h0]
          have hrest := ih (attempt + 1) (process_payment_event env pid m now attempt db).db
          simp [updateCount, isStore, List.filter_cons, List.filter_append] at hrest ⊢
          omega

theorem reconcileLoop_status (cfg : ServiceCfg) (env : WebhookEnv) (pid : String)
    (now : Nat) : ∀ (fuel attempt : Nat) (db : DB),
    (reconcileLoop cfg env pid now attempt fuel db).result.status = "success" ∨
    (reconcileLoop cfg env pid now attempt fuel db).result.status = "error" := by
  intro fuel
  induction fuel with
  | zero =>
    intro attempt db
    exact Or.inr rfl
  | succ fuel ih =>
    intro attempt db
    rw [reconcileLoop]
    cases hf : env.fetchResults attempt with
    | none =>
      dsimp only
      by_cases h0 : fuel = 0
      · rw [if_pos h0]
        exact Or.inr rfl
      · rw [if_neg h0]
        exact ih (attempt + 1) db
    | some m =>
      dsimp only
      cases hok : (process_payment_event env pid m now attempt db).ok with
      | true =>
        rw [if_pos rfl]
        exact Or.inl rfl
      | false =>
        rw [if_neg Bool.false_ne_true]
        by_cases h0 : fuel = 0
        · rw [if_pos h0]
          exact Or.inr rfl
        · rw [if_neg h0]
          exact ih (attempt + 1) (process_payment_event env pid m now attempt db).db

theorem reconcileLoop_sleeps (cfg : ServiceCfg) (env : WebhookEnv) (pid : String)
    (now : Nat) : ∀ (fuel attempt : Nat) (db : DB),
    sleepsOf (reconcileLoop cfg env pid now attempt fuel db).effects <+:
      (List.range (fuel - 1)).map (fun k => cfg.retry_delay * (attempt + k + 1)) := by
  intro fuel
  induction fuel with
  | zero =>
    intro attempt db
    exact List.nil_prefix
  | succ fuel ih =>
    intro attempt db
    have htail : ∀ (db2 : DB), fuel ≠ 0 →
        cfg.retry_delay * (attempt + 1) ::
            sleepsOf (reconcileLoop cfg env pid now (attempt + 1) fuel db2).effects <+:
          (List.range (fuel + 1 - 1)).map (fun k => cfg.retry_delay * (attempt + k + 1)) := by
      intro db2 h0
      obtain ⟨g, rfl⟩ := Nat.exists_eq_succ_of_ne_zero h0
      have hih := ih (attempt + 1) db2
      rw [Nat.succ_sub_one, List.range_succ_eq_map, List.map_cons, List.map_map]
      have heq : (List.range g).map
            ((fun k => cfg.retry_delay * (attempt + k + 1)) ∘ Nat.succ) =
          (List.range g).map (fun k => cfg.retry_delay * (attempt + 1 + k + 1)) :=
        List.map_congr_left (fun k _ => by
          simp only [Function.comp_apply]
          congr 1
          omega)
      rw [heq]
      have h01 : cfg.retry_delay * (attempt + 0 + 1) = cfg.retry_delay * (attempt + 1) := by
        congr 1
      rw [h01]
      rw [Nat.succ_sub_one] at hih
      exact prefix_cons_cons hih
    rw [reconcileLoop]
    cases hf : env.fetchResults attempt with
    | none =>
      dsimp only
      by_cases h0 : fuel = 0
      · rw [if_pos h0]
        exact List.nil_prefix
      · rw [if_neg h0]
        simp only [sleepsOf, List.filterMap_cons]
        exact htail db h0
    | some m =>
      dsimp only
      have hevs : sleepsOf (process_payment_event env pid m now attempt db).effects = [] := by
        rcases process_payment_event_effects env pid m now attempt db with h | h <;>
          simp [h, sleepsOf]
      cases hok : (process_payment_event env pid m now attempt db).ok with
      | true =>
        rw [if_pos rfl]
        simp only [sleepsOf, List.filterMap_cons]
        simp only [sleepsOf] at hevs
        rw [hevs]
        exact List.nil_prefix
      | false =>
        rw [if_neg Bool.false_ne_true]
        by_cases h0 : fuel = 0
        · rw [if_pos h0]
          simp only [sleepsOf, List.filterMap_cons]
          simp only [sleepsOf] at hevs
          rw [hevs]
          exact List.nil_prefix
        · rw [if_neg h0]
          simp only [sleepsOf, List.filterMap_cons, List.filterMap_append]
          simp only [sleepsOf] at hevs
          rw [hevs]
          simp only [List.nil_append, List.filterMap_cons]
          exact htail (process_payment_event env pid m now attempt db).db h0

theorem reconcileLoop_all_fetch_fail (cfg : ServiceCfg) (env : WebhookEnv) (pid : String)
    (now : Nat) (hfail : ∀ a, env.fetchResults a = none) :
    ∀ (fuel attempt : Nat) (db : DB), fuel ≠ 0 →
    (reconcileLoop cfg env pid now attempt fuel db).result =
      ⟨"error", "Failed to get payment from MP"⟩ := by
  intro fuel
  induction fuel with
  | zero => exact fun attempt db h0 => absurd rfl h0
  | succ fuel ih =>
    intro attempt db _
    rw [reconcileLoop, hfail attempt]
    dsimp only
    by_cases h0 : fuel = 0
    · rw [if_pos h0]
    · rw [if_neg h0]
      exact ih (attempt + 1) db h0

/-- **C8.** Webhook processing always terminates with a result: the
processor fetch and the store update are attempted at most 3 times, the
sleeps between attempts follow the linear backoff `retry_delay * attempt`
(attempts numbered from 1, i.e. at most `[5 * 1, 5 * 2]` seconds, in that
order), and when every fetch attempt fails the run ends in an error result
rather than retrying further. -/
theorem webhook_bounded_retries (env : WebhookEnv) (payload signature : String)
    (now : Nat) (db : DB) :
    fetchCount (process_webhook defaultService env payload signature now db).effects ≤ 3 ∧
    updateCount (process_webhook defaultService env payload signature now db).effects ≤ 3 ∧
    sleepsOf (process_webhook defaultService env payload signature now db).effects <+:
      [defaultService.retry_delay * 1, defaultService.retry_delay * 2] ∧
    ((process_webhook defaultService env payload signature now db).result.status = "success" ∨
     (process_webhook defaultService env payload signature now db).result.status = "ignored" ∨
     (process_webhook defaultService env payload signature now db).result.status = "error") ∧
    ((∀ a, env.fetchResults a = none) →
      validate_webhook_signature env payload signature = true →
      (∃ pid, env.parse payload = .paymentId pid) →
      (process_webhook defaultService env payload signature now db).result =
        ⟨"error", "Failed to get payment from MP"⟩) := by
  unfold process_webhook
  split
  · next hv =>
    refine ⟨by simp [fetchCount], by simp [updateCount], by simp [sleepsOf],
      Or.inr (Or.inr rfl), fun _ hvt _ => absurd hvt (by simp [hv])⟩
  · next hv =>
    split
    · next hparse =>
      refine ⟨by simp [fetchCount], by simp [updateCount], by simp [sleepsOf],
        Or.inr (Or.inr rfl), fun _ _ hex => ?_⟩
      obtain ⟨pid, hp⟩ := hex
      rw [hparse] at hp
      exact absurd hp (by intro h; injection h)
    · next hparse =>
      refine ⟨by simp [fetchCount], by simp [updateCount], by simp [sleepsOf],
        Or.inr (Or.inl rfl), fun _ _ hex => ?_⟩
      obtain ⟨pid, hp⟩ := hex
      rw [hparse] at hp
      exact absurd hp (by intro h; injection h)
    · next pid hparse =>
      have hsl := reconcileLoop_sleeps defaultService env pid now
        defaultService.max_retries 0 db
      have hslshape : (List.range (defaultService.max_retries - 1)).map
          (fun k => defaultService.retry_delay * (0 + k + 1)) =
          [defaultService.retry_delay * 1, defaultService.retry_delay * 2] := by
        decide
      refine ⟨reconcileLoop_fetchCount defaultService env pid now 3 0 db,
        reconcileLoop_updateCount defaultService env pid now 3 0 db,
        by rw [← hslshape]; exact hsl, ?_, fun hfail _ _ =>
          reconcileLoop_all_fetch_fail defaultService env pid now hfail 3 0 db
            (by decide)⟩
      rcases reconcileLoop_status defaultService env pid now 3 0 db with h | h
      · exact Or.inl h
      · exact Or.inr (Or.inr h)

/-! ## C1: webhook reconciliation is idempotent

The reconciliation loop only ever rewrites payment rows keyed by job id to
an environment-determined status; its effect on the `(job_id, status)`
view of the store is a sequence of such writes that depends only on the
environment and the static `jobs`/`users` tables, never on the payment
rows themselves.  Replaying a delivery therefore replays the same write
sequence, and constant writes are absorbed under repetition. -/

/-- The reconciliation-relevant view of the payment rows: job id and
status of every row, in store order. -/
def statusView (db : DB) : List (String × String) :=
  db.payments.map (fun p => (p.job_id, p.status))

/-- One reconciliation write on the view: set every row with the given job
id to the given status. -/
def applyWrite (w : String × String) (s : List (String × String)) :
    List (String × String) :=
  s.map (fun x => if x.1 = w.1 then (x.1, w.2) else x)

/-- A sequence of reconciliation writes, applied left to right. -/
def applyWrites (ws : List (String × String)) (s : List (String × String)) :
    List (String × String) :=
  ws.foldl (fun s w => applyWrite w s) s

/-- The boolean result of `_process_payment_event`, computed from the
static tables only (the event never reads the payment rows). -/
def eventOkB (env : WebhookEnv) (jobs : List Job) (users : List String)
    (m : MPPayment) (attempt : Nat) : Bool :=
  match m.external_reference with
  | none => false
  | some ext =>
    if startsWithJob ext = false then false
    else
      match jobs.find? (fun j => decide (j.id = jobIdOfRef ext)) with
      | none => false
      | some job =>
        if env.updateOk attempt then notifyUsersPresent (eventInternal m) job users
        else false

/-- The status writes performed by one `_process_payment_event` run. -/
def eventWrites (env : WebhookEnv) (jobs : List Job) (m : MPPayment) (attempt : Nat) :
    List (String × String) :=
  match m.external_reference with
  | none => []
  | some ext =>
    if startsWithJob ext = false then []
    else
      match jobs.find? (fun j => decide (j.id = jobIdOfRef ext)) with
      | none => []
      | some _ =>
        if env.updateOk attempt then [(jobIdOfRef ext, eventInternal m)] else []

/-- The status writes performed by the retry loop, a function of the
environment and the static tables only. -/
def loopWrites (env : WebhookEnv) (jobs : List Job) (users : List String) :
    Nat → Nat → List (String × String)
  | _, 0 => []
  | attempt, fuel + 1 =>
    match env.fetchResults attempt with
    | none => if fuel = 0 then [] else loopWrites env jobs users (attempt + 1) fuel
    | some m =>
      if eventOkB env jobs users m attempt then eventWrites env jobs m attempt
      else if fuel = 0 then eventWrites env jobs m attempt
      else eventWrites env jobs m attempt ++ loopWrites env jobs users (attempt + 1) fuel

/-- The status writes performed by a whole `process_webhook` run. -/
def webhookWrites (cfg : ServiceCfg) (env : WebhookEnv) (payload signature : String)
    (jobs : List Job) (users : List String) : List (String × String) :=
  if validate_webhook_signature env payload signature = false then []
  else
    match env.parse payload with
    | .invalid => []
    | .noPaymentId => []
    | .paymentId _ => loopWrites env jobs users 0 cfg.max_retries

theorem applyWrite_statusView (jobId pid : String) (ms : Option String) (internal : String)
    (now : Nat) (ps : List Payment) :
    (ps.map (applyPaymentUpdate jobId pid ms internal now)).map
        (fun p => (p.job_id, p.status)) =
      applyWrite (jobId, internal) (ps.map (fun p => (p.job_id, p.status))) := by
  simp only [applyWrite, List.map_map]
  refine List.map_congr_left (fun p _ => ?_)
  by_cases hj : p.job_id = jobId
  · simp [applyPaymentUpdate, hj]
  · simp [applyPaymentUpdate, hj]

theorem process_payment_event_ok (env : WebhookEnv) (pid : String) (m : MPPayment)
    (now attempt : Nat) (db : DB) :
    (process_payment_event env pid m now attempt db).ok =
      eventOkB env db.jobs db.users m attempt := by
  unfold process_payment_event eventOkB
  dsimp only
  repeat' split
  all_goals rfl

theorem process_payment_event_statusView (env : WebhookEnv) (pid : String) (m : MPPayment)
    (now attempt : Nat) (db : DB) :
    statusView (process_payment_event env pid m now attempt db).db =
      applyWrites (eventWrites env db.jobs m attempt) (statusView db) := by
  unfold process_payment_event eventWrites
  dsimp only
  repeat' split
  all_goals
    first
      | rfl
      | (simp only [statusView, applyWrites, List.foldl_cons, List.foldl_nil]
         exact applyWrite_statusView _ _ _ _ _ _)

theorem applyWrites_append (l1 l2 : List (String × String)) (s : List (String × String)) :
    applyWrites (l1 ++ l2) s = applyWrites l2 (applyWrites l1 s) :=
  List.foldl_append _ _ _ _

theorem reconcileLoop_statusView (cfg : ServiceCfg) (env : WebhookEnv) (pid : String)
    (now : Nat) : ∀ (fuel attempt : Nat) (db : DB),
    statusView (reconcileLoop cfg env pid now attempt fuel db).db =
      applyWrites (loopWrites env db.jobs db.users attempt fuel) (statusView db) := by
  intro fuel
  induction fuel with
  | zero => exact fun attempt db => rfl
  | succ fuel ih =>
    intro attempt db
    rw [reconcileLoop, loopWrites]
    cases hf : env.fetchResults attempt with
    | none =>
      dsimp only
      by_cases h0 : fuel = 0
      · rw [if_pos h0, if_pos h0]
        rfl
      · rw [if_neg h0, if_neg h0]
        exact ih (attempt + 1) db
    | some m =>
      dsimp only
      rw [← process_payment_event_ok env pid m now attempt db]
      cases hok : (process_payment_event env pid m now attempt db).ok with
      | true =>
        rw [if_pos rfl, if_pos rfl]
        exact process_payment_event_statusView env pid m now attempt db
      | false =>
        rw [if_neg Bool.false_ne_true, if_neg Bool.false_ne_true]
        by_cases h0 : fuel = 0
        · rw [if_pos h0, if_pos h0]
          exact process_payment_event_statusView env pid m now attempt db
        · rw [if_neg h0, if_neg h0]
          obtain ⟨hj, hu, _, _⟩ := process_payment_event_frame env pid m now attempt db
          rw [ih (attempt + 1) (process_payment_event env pid m now attempt db).db, hj, hu,
            process_payment_event_statusView env pid m now attempt db, applyWrites_append]

theorem process_webhook_statusView (cfg : ServiceCfg) (env : WebhookEnv)
    (payload signature : String) (now : Nat) (db : DB) :
    statusView (process_webhook cfg env payload signature now db).db =
      applyWrites (webhookWrites cfg env payload signature db.jobs db.users)
        (statusView db) := by
  unfold process_webhook webhookWrites
  split
  · rfl
  · split
    · rfl
    · rfl
    · exact reconcileLoop_statusView cfg env _ now cfg.max_retries 0 db

/-- The cumulative effect of a write sequence on one view entry. -/
def writePair (ws : List (String × String)) (x : String × String) : String × String :=
  ws.foldl (fun x w => if x.1 = w.1 then (x.1, w.2) else x) x

theorem applyWrites_eq_map (ws : List (String × String)) :
    ∀ s, applyWrites ws s = s.map (writePair ws) := by
  induction ws with
  | nil =>
    intro s
    exact ((List.map_congr_left (fun x _ => rfl)).trans (List.map_id s)).symm
  | cons w ws ih =>
    intro s
    rw [show applyWrites (w :: ws) s = applyWrites ws (applyWrite w s) from rfl, ih,
      applyWrite, List.map_map]
    exact List.map_congr_left (fun x _ => rfl)

theorem writePair_fst (ws : List (String × String)) : ∀ x, (writePair ws x).1 = x.1 := by
  induction ws with
  | nil => exact fun x => rfl
  | cons w ws ih =>
    intro x
    show (writePair ws (if x.1 = w.1 then (x.1, w.2) else x)).1 = x.1
    rw [ih]
    split <;> rfl

theorem writePair_const_or_id (ws : List (String × String)) (k : String) :
    (∀ st, writePair ws (k, st) = (k, st)) ∨
    (∀ st st', writePair ws (k, st) = writePair ws (k, st')) := by
  induction ws with
  | nil => exact Or.inl (fun st => rfl)
  | cons w ws ih =>
    by_cases hk : k = w.1
    · refine Or.inr (fun st st' => ?_)
      show writePair ws (if (k, st).1 = w.1 then ((k, st).1, w.2) else (k, st)) =
        writePair ws (if (k, st').1 = w.1 then ((k, st').1, w.2) else (k, st'))
      rw [if_pos hk, if_pos hk]
    · rcases ih with h | h
      · refine Or.inl (fun st => ?_)
        show writePair ws (if (k, st).1 = w.1 then ((k, st).1, w.2) else (k, st)) = (k, st)
        rw [if_neg hk]
        exact h st
      · refine Or.inr (fun st st' => ?_)
        show writePair ws (if (k, st).1 = w.1 then ((k, st).1, w.2) else (k, st)) =
          writePair ws (if (k, st').1 = w.1 then ((k, st').1, w.2) else (k, st'))
        rw [if_neg hk, if_neg hk]
        exact h st st'

theorem writePair_absorb (ws : List (String × String)) (x : String × String) :
    writePair ws (writePair ws x) = writePair ws x := by
  obtain ⟨k, st⟩ := x
  rcases writePair_const_or_id ws k with h | h
  · rw [h st, h st]
  · have hx : writePair ws (k, st) = (k, (writePair ws (k, st)).2) :=
      Prod.ext (writePair_fst ws (k, st)) rfl
    conv_lhs => rw [hx]
    rw [h (writePair ws (k, st)).2 st]

theorem applyWrites_absorb (ws : List (String × String)) (s : List (String × String)) :
    applyWrites ws (applyWrites ws s) = applyWrites ws s := by
  rw [applyWrites_eq_map, applyWrites_eq_map, List.map_map]
  exact List.map_congr_left (fun x _ => writePair_absorb ws x)

theorem applyWrites_map_fst (ws : List (String × String)) (s : List (String × String)) :
    (applyWrites ws s).map Prod.fst = s.map Prod.fst := by
  rw [applyWrites_eq_map, List.map_map]
  exact List.map_congr_left (fun x _ => writePair_fst ws x)

theorem statusView_fst (db : DB) : (statusView db).map Prod.fst = paymentJobIds db := by
  rw [statusView, List.map_map]
  rfl

theorem statusView_length (db : DB) : (statusView db).length = db.payments.length :=
  List.length_map _ _

/-- **C1.** Webhook reconciliation is idempotent: after a successful
`process_webhook` call, redelivering the identical payload and signature
does not change the stored `(job_id, status)` view of any payment beyond
what the status mapping already produced, and creates no second payment
record (the write is an update keyed by job id, not an insert: the job-id
list of the payment table — and hence its length — is unchanged by both
deliveries); in particular replaying the same payload/signature twice
yields the same final statuses as replaying it once. -/
theorem webhook_reconciliation_idempotent (cfg : ServiceCfg) (env : WebhookEnv)
    (payload signature : String) (now1 now2 : Nat) (db : DB)
    (hsuccess :
      (process_webhook cfg env payload signature now1 db).result.status = "success") :
    statusView (process_webhook cfg env payload signature now2
        (process_webhook cfg env payload signature now1 db).db).db =
      statusView (process_webhook cfg env payload signature now1 db).db ∧
    paymentJobIds (process_webhook cfg env payload signature now2
        (process_webhook cfg env payload signature now1 db).db).db =
      paymentJobIds (process_webhook cfg env payload signature now1 db).db ∧
    paymentJobIds (process_webhook cfg env payload signature now1 db).db =
      paymentJobIds db ∧
    (process_webhook cfg env payload signature now2
        (process_webhook cfg env payload signature now1 db).db).db.payments.length =
      (process_webhook cfg env payload signature now1 db).db.payments.length := by
  have h1 := process_webhook_statusView cfg env payload signature now1 db
  obtain ⟨hj, hu, _, _⟩ := process_webhook_frame cfg env payload signature now1 db
  have h2 := process_webhook_statusView cfg env payload signature now2
    (process_webhook cfg env payload signature now1 db).db
  rw [hj, hu] at h2
  have keyS : statusView (process_webhook cfg env payload signature now2
      (process_webhook cfg env payload signature now1 db).db).db =
      statusView (process_webhook cfg env payload signature now1 db).db := by
    rw [h2, h1, applyWrites_absorb]
  refine ⟨keyS, ?_, ?_, ?_⟩
  · rw [← statusView_fst, ← statusView_fst, keyS]
  · rw [← statusView_fst, ← statusView_fst, h1, applyWrites_map_fst]
  · rw [← statusView_length, ← statusView_length, keyS]

/-- A webhook environment in which every collaborator succeeds: no secret
configured, the body parses to payment id `mp1`, every fetch reports an
`approved` payment for job `J1`, and every store update succeeds. -/
def wEnvOk : WebhookEnv :=
  ⟨none, fun _ _ => "", fun _ => .paymentId "mp1",
    fun _ => some ⟨some "job_J1", some "approved", 100⟩, fun _ => true⟩

/-- Witness for C1: a successful delivery against the concrete store,
replayed at a later time. -/
theorem webhook_reconciliation_idempotent_witness :
    statusView (process_webhook defaultService wEnvOk "body" "sig" 2
        (process_webhook defaultService wEnvOk "body" "sig" 1 wDB).db).db =
      statusView (process_webhook defaultService wEnvOk "body" "sig" 1 wDB).db ∧
    paymentJobIds (process_webhook defaultService wEnvOk "body" "sig" 2
        (process_webhook defaultService wEnvOk "body" "sig" 1 wDB).db).db =
      paymentJobIds (process_webhook defaultService wEnvOk "body" "sig" 1 wDB).db ∧
    paymentJobIds (process_webhook defaultService wEnvOk "body" "sig" 1 wDB).db =
      paymentJobIds wDB ∧
    (process_webhook defaultService wEnvOk "body" "sig" 2
        (process_webhook defaultService wEnvOk "body" "sig" 1 wDB).db).db.payments.length =
      (process_webhook defaultService wEnvOk "body" "sig" 1 wDB).db.payments.length :=
  webhook_reconciliation_idempotent defaultService wEnvOk "body" "sig" 1 2 wDB (by decide)

/-- Witness for C8: with a signature-less configuration, a parsed payment
id, and a processor that never answers, the run performs at most 3 fetch
attempts and ends in the fetch-failure error result. -/
def wEnvFetchFail : WebhookEnv :=
  ⟨none, fun _ _ => "", fun _ => .paymentId "mp1", fun _ => none, fun _ => true⟩

theorem webhook_bounded_retries_witness :
    fetchCount (process_webhook defaultService wEnvFetchFail "body" "sig" 0 wDB).effects
        ≤ 3 ∧
    updateCount (process_webhook defaultService wEnvFetchFail "body" "sig" 0 wDB).effects
        ≤ 3 ∧
    (process_webhook defaultService wEnvFetchFail "body" "sig" 0 wDB).result =
      ⟨"error", "Failed to get payment from MP"⟩ := by
  have h := webhook_bounded_retries wEnvFetchFail "body" "sig" 0 wDB
  exact ⟨h.1, h.2.1, h.2.2.2.2 (fun a => rfl) (by decide) ⟨"mp1", rfl⟩⟩

end OficiosMZ
